import Mathlib

/-!
Shallow embedding of src/main.rs of the pushel reminder daemon.
Time is modelled in whole seconds as Nat; Instant.duration_since saturates
at zero for an earlier query instant, matching Nat subtraction. The strings
handed to parse_interval are modelled as their UTF-8 byte lists, each byte a
Nat below 256, because str.len and str.split_at in the source work on bytes.
-/

/-- MotionStatus from the source: Active or Inactive. -/
inductive MotionStatus where
  | Active
  | Inactive
deriving DecidableEq

/-- State held by MotionTracker: the two Arc-Mutex cells last_motion and
current_status. The tokio runtime handle is operational plumbing and carries
no state. Timestamps are seconds as Nat. -/
structure MotionTracker where
  last_motion : Option Nat
  current_status : MotionStatus
deriving DecidableEq

/-- MotionTracker::new: no motion recorded, status Inactive. -/
def MotionTracker.new : MotionTracker :=
  { last_motion := none, current_status := MotionStatus.Inactive }

/-- MotionTracker::update_motion: sets last_motion to the present instant. -/
def update_motion (now : Nat) (s : MotionTracker) : MotionTracker :=
  { s with last_motion := some now }

/-- MotionTracker::should_notify: true iff last_motion is set and the time
since it is at most 15 * 60 seconds. duration_since saturates at zero when
the query instant is earlier, as Nat subtraction does. -/
def should_notify (now : Nat) (s : MotionTracker) : Bool :=
  match s.last_motion with
  | some lm => decide (now - lm ≤ 15 * 60)
  | none => false

/-- Home Assistant settings handed to update_status by the idle thread. -/
structure HAConfig where
  ha_url : Option String
  ha_api_key : Option String
deriving DecidableEq

/-- MotionTracker::update_status: when the new status differs from the
current one the status cell is updated and, iff both Home Assistant
settings are configured, a push_to_homeassistant task is spawned. The
returned list holds the statuses handed to the pushes spawned by this call
(empty or a singleton); no other code path spawns a push. -/
def update_status (cfg : HAConfig) (new_status : MotionStatus) (s : MotionTracker) :
    MotionTracker × List MotionStatus :=
  if s.current_status ≠ new_status then
    ({ s with current_status := new_status },
      match cfg.ha_url, cfg.ha_api_key with
      | some _, some _ => [new_status]
      | _, _ => [])
  else (s, [])

/-- One byte of the decimal digits 0 to 9 (ASCII 48 to 57). -/
def isAsciiDigit (b : Nat) : Bool := 48 ≤ b && b ≤ 57

/-- Decimal value of a list of digit bytes. -/
def digitsVal (bs : List Nat) : Nat :=
  bs.foldl (fun a b => a * 10 + (b - 48)) 0

/-- Rust str.parse for u64: an optional leading plus sign (byte 43)
followed by one or more ASCII digits whose value is below 2 ^ 64; anything
else (empty input, a stray byte, overflow) is a parse error. -/
def parse_u64 (bs : List Nat) : Option Nat :=
  let ds := match bs with
    | 43 :: rest => rest
    | _ => bs
  if !ds.isEmpty && ds.all isAsciiDigit && decide (digitsVal ds < 2 ^ 64) then
    some (digitsVal ds)
  else none

/-- A UTF-8 continuation byte (128 to 191); str.split_at panics when its
index lands on one, since that is not a char boundary. -/
def isContByte (b : Nat) : Bool := 128 ≤ b && b ≤ 191

/-- Outcome of parse_interval: Ok seconds, Err with the source message, or
the panic of split_at when the last character of the string is multi-byte. -/
inductive IntervalResult where
  | panics
  | err (msg : String)
  | ok (v : Nat)
deriving DecidableEq

/-- Error message for a string shorter than two bytes. -/
def invalidFormatMsg : String := "Ungültiges Intervallformat"

/-- Error message for a numeric prefix that does not parse as u64. -/
def invalidNumberMsg : String := "Ungültiger Zahlenwert im Intervall"

/-- Error message for an unrecognized unit suffix. -/
def invalidUnitMsg : String := "Ungültige Zeiteinheit im Intervall"

/-- parse_interval from the source, over the UTF-8 bytes of the input.
len is the byte length; split_at (len - 1) panics iff the byte at index
len - 1 is a continuation byte; the prefix parses as u64; the unit products
for m and h wrap modulo 2 ^ 64 as release-mode u64 arithmetic does. Bytes
115, 109 and 104 are the letters s, m and h. -/
def parse_interval (bs : List Nat) : IntervalResult :=
  if bs.length < 2 then IntervalResult.err invalidFormatMsg
  else if isContByte (bs.getLast?.getD 0) then IntervalResult.panics
  else
    match parse_u64 (bs.take (bs.length - 1)) with
    | none => IntervalResult.err invalidNumberMsg
    | some v =>
      if bs.drop (bs.length - 1) = [115] then IntervalResult.ok v
      else if bs.drop (bs.length - 1) = [109] then IntervalResult.ok ((v * 60) % 2 ^ 64)
      else if bs.drop (bs.length - 1) = [104] then IntervalResult.ok ((v * 3600) % 2 ^ 64)
      else IntervalResult.err invalidUnitMsg

/-- NotificationConfig from the source; the interval string is kept as its
UTF-8 bytes. -/
structure NotificationConfig where
  title : Option String
  message : String
  interval : List Nat
  urgency : Option String
  expire_time : Option Nat
  app_name : Option String
  icon : Option String
  category : Option String
  transient : Option Bool
deriving DecidableEq

/-- AdhocNotification: the ad-hoc request body; the message is required by
the type, every other field optional. -/
structure AdhocNotification where
  title : Option String
  message : String
  urgency : Option String
  expire_time : Option Nat
  app_name : Option String
  icon : Option String
  category : Option String
  transient : Option Bool
deriving DecidableEq

/-- NotificationConfig built by the adhoc warp route from a request body;
the interval is left empty, unused for ad-hoc notifications. -/
def adhocConfig (n : AdhocNotification) : NotificationConfig :=
  { title := n.title, message := n.message, interval := [],
    urgency := n.urgency, expire_time := n.expire_time,
    app_name := n.app_name, icon := n.icon, category := n.category,
    transient := n.transient }

/-- Handler of the adhoc warp route: builds the config, hands it to
send_notification once, and replies with the acknowledgment string. The
route closure captures no MotionTracker; the tracker state is threaded
through here so the frame property can be stated. Returned: the tracker
state, the send_notification invocations, the reply body. -/
def adhoc_handler (s : MotionTracker) (n : AdhocNotification) :
    MotionTracker × List NotificationConfig × String :=
  (s, [adhocConfig n], "Notification sent")

/-- Result of UserIdle::get_time: idle seconds, or a platform error. -/
inductive IdleQueryResult where
  | ok (idle_seconds : Nat)
  | err
deriving DecidableEq

/-- One iteration of the idle detection thread body: on a successful query
with idle below 10 seconds, update_motion then update_status Active; with
idle of at least 10 seconds, update_status Inactive only; on a failed query
the error is only logged. Returns the tracker state and the pushes
dispatched by the iteration. -/
def idle_step (cfg : HAConfig) (q : IdleQueryResult) (now : Nat) (s : MotionTracker) :
    MotionTracker × List MotionStatus :=
  match q with
  | IdleQueryResult.ok i =>
    if i < 10 then update_status cfg MotionStatus.Active (update_motion now s)
    else update_status cfg MotionStatus.Inactive s
  | IdleQueryResult.err => (s, [])

/-- Events touching the shared tracker, in the order they interleave: an
idle-thread poll, or one reminder-timer evaluation. -/
inductive Event where
  | poll (q : IdleQueryResult) (now : Nat)
  | tick (now : Nat)
deriving DecidableEq

/-- An event that records activity: a successful poll with idle duration
below the 10 second threshold. -/
def recordsActivity : Event → Bool
  | Event.poll (IdleQueryResult.ok i) _ => decide (i < 10)
  | _ => false

/-- The presence value each successful poll assigns, in trace order. -/
def pollStatuses : List Event → List MotionStatus
  | [] => []
  | Event.poll (IdleQueryResult.ok i) _ :: es =>
    (if i < 10 then MotionStatus.Active else MotionStatus.Inactive) :: pollStatuses es
  | _ :: es => pollStatuses es

/-- Number of changes along a status sequence read from a previous value. -/
def changes : MotionStatus → List MotionStatus → Nat
  | _, [] => 0
  | prev, c :: cs => (if prev = c then 0 else 1) + changes c cs

/-- Accumulator step for the time of the most recent successful poll. -/
def lastPollStep (a : Option Nat) (e : Event) : Option Nat :=
  match e with
  | Event.poll (IdleQueryResult.ok _) now => some now
  | _ => a

/-- Time of the most recent successful idle poll of the trace, if any. -/
def lastSuccessfulPoll (es : List Event) : Option Nat :=
  es.foldl lastPollStep none

/-- Shared-system state: the tracker plus the observable outputs, the
pushes to Home Assistant and the configs handed to send_notification. -/
structure SysState where
  tracker : MotionTracker
  published : List MotionStatus
  sent : List NotificationConfig
deriving DecidableEq

/-- System state at startup. -/
def initSys : SysState :=
  { tracker := MotionTracker.new, published := [], sent := [] }

/-- Effect of one event on the system, for one reminder timer with
configuration spec: a poll runs the idle-thread body; a tick runs one
reminder-loop evaluation, handing spec to send_notification iff
should_notify holds at that instant. -/
def stepEvent (cfg : HAConfig) (spec : NotificationConfig) (st : SysState) (e : Event) :
    SysState :=
  match e with
  | Event.poll q now =>
    { tracker := (idle_step cfg q now st.tracker).1,
      published := st.published ++ (idle_step cfg q now st.tracker).2,
      sent := st.sent }
  | Event.tick now =>
    if should_notify now st.tracker then { st with sent := st.sent ++ [spec] }
    else st

/-- Run a trace of events from a given state. -/
def runEvents (cfg : HAConfig) (spec : NotificationConfig) (es : List Event)
    (st : SysState) : SysState :=
  es.foldl (stepEvent cfg spec) st

/-- Idealized instant of the k-th evaluation of a reminder loop, measured
from thread start: the loop sleeps one interval before the first
evaluation and one interval after each evaluation. -/
def reminder_tick_time (interval k : Nat) : Nat := (k + 1) * interval

/-- True exactly for Ok results of parse_interval. -/
def isOkResult : IntervalResult → Bool
  | IntervalResult.ok _ => true
  | _ => false

/-- True when parse_interval ended in one of the three documented errors. -/
def isDocumentedError : IntervalResult → Bool
  | IntervalResult.err _ => true
  | _ => false

/-- The reminder spawn loop of main: for each configured interval string in
order, parse it; on success spawn that reminder timer and continue; on a
failure (an Err propagated by the question mark, or a panic) abort main at
once, spawning nothing further but leaving the earlier timers already
spawned. Returns the spawned pairs of interval bytes with parsed seconds,
and whether main aborted. -/
def spawn_reminders : List (List Nat) → List (List Nat × Nat) × Bool
  | [] => ([], false)
  | iv :: rest =>
    match parse_interval iv with
    | IntervalResult.ok v =>
      ((iv, v) :: (spawn_reminders rest).1, (spawn_reminders rest).2)
    | _ => ([], true)

/-- How main ends after the idle thread is spawned: abort on a bad interval
string, abort on a bad listen address, block forever serving the
webserver, or return Ok at once. -/
inductive MainOutcome where
  | configError
  | addrError
  | serveForever (spawned : Nat)
  | returnsOk (spawned : Nat)
deriving DecidableEq

/-- Tail of main after the idle thread starts: run the reminder spawn
loop; then, only when webserver_enabled holds, parse the listen address
and serve forever; otherwise fall through and return Ok immediately,
ending the process. -/
def main_run (webserver_enabled : Bool) (addrOk : Bool)
    (intervals : List (List Nat)) : MainOutcome :=
  if (spawn_reminders intervals).2 then MainOutcome.configError
  else if webserver_enabled then
    if addrOk then MainOutcome.serveForever (spawn_reminders intervals).1.length
    else MainOutcome.addrError
  else MainOutcome.returnsOk (spawn_reminders intervals).1.length

/-- Sample Home Assistant configuration for concrete instances. -/
def sampleCfg : HAConfig := { ha_url := none, ha_api_key := none }

/-- Sample reminder configuration for concrete instances; the interval
bytes spell 30m. -/
def sampleSpec : NotificationConfig :=
  { title := none, message := "Trink Wasser!", interval := [51, 48, 109],
    urgency := none, expire_time := none, app_name := none, icon := none,
    category := none, transient := none }

/-- update_status leaves last_motion untouched. -/
theorem update_status_motion (cfg : HAConfig) (ns : MotionStatus) (s : MotionTracker) :
    (update_status cfg ns s).1.last_motion = s.last_motion := by
  unfold update_status
  by_cases h : s.current_status = ns <;> simp [h]

/-- update_status always leaves the status cell holding the new value. -/
theorem update_status_current (cfg : HAConfig) (ns : MotionStatus) (s : MotionTracker) :
    (update_status cfg ns s).1.current_status = ns := by
  unfold update_status
  by_cases h : s.current_status = ns <;> simp [h]

/-- The state update of update_status does not depend on the settings. -/
theorem update_status_state_cfg (cfg cfg2 : HAConfig) (ns : MotionStatus)
    (s : MotionTracker) :
    (update_status cfg ns s).1 = (update_status cfg2 ns s).1 := by
  unfold update_status
  by_cases h : s.current_status = ns <;> simp [h]

/-- With both settings configured, update_status dispatches one push on a
transition and none otherwise. -/
theorem update_status_pub_len (u k : String) (ns : MotionStatus) (s : MotionTracker) :
    (update_status ⟨some u, some k⟩ ns s).2.length
      = if s.current_status = ns then 0 else 1 := by
  unfold update_status
  by_cases h : s.current_status = ns <;> simp [h]

/-- With either setting absent, update_status dispatches nothing. -/
theorem update_status_pub_nil (cfg : HAConfig) (ns : MotionStatus) (s : MotionTracker)
    (h : cfg.ha_url = none ∨ cfg.ha_api_key = none) :
    (update_status cfg ns s).2 = [] := by
  obtain ⟨u, k⟩ := cfg
  by_cases hs : s.current_status = ns
  · simp [update_status, hs]
  · cases u <;> cases k <;> simp_all [update_status, hs]

/-- Repeating the current status dispatches nothing. -/
theorem update_status_pub_same (cfg : HAConfig) (ns : MotionStatus) (s : MotionTracker)
    (h : s.current_status = ns) :
    (update_status cfg ns s).2 = [] := by
  simp [update_status, h]

/-- Claim C1: should_notify is true iff last_motion is set and at most 15
minutes before the query time, and on a freshly constructed tracker it is
false at every query time. -/
theorem c1_should_notify_gate (now : Nat) (s : MotionTracker) :
    (should_notify now s = true ↔ ∃ t, s.last_motion = some t ∧ now - t ≤ 15 * 60)
      ∧ should_notify now MotionTracker.new = false := by
  constructor
  · cases hl : s.last_motion with
    | none => simp [should_notify, hl]
    | some t => simp [should_notify, hl]
  · rfl

/-- Claim C4: one idle-thread iteration: a poll seeing idle below 10
seconds sets last_motion to now and the presence to Active; a poll seeing
idle of 10 seconds or more leaves last_motion untouched and sets the
presence to Inactive; a failed query changes nothing and dispatches
nothing. -/
theorem c4_idle_step_frame (cfg : HAConfig) (s : MotionTracker) (i now : Nat) :
    (i < 10 →
        (idle_step cfg (IdleQueryResult.ok i) now s).1.last_motion = some now
          ∧ (idle_step cfg (IdleQueryResult.ok i) now s).1.current_status
              = MotionStatus.Active)
      ∧ (¬ i < 10 →
        (idle_step cfg (IdleQueryResult.ok i) now s).1.last_motion = s.last_motion
          ∧ (idle_step cfg (IdleQueryResult.ok i) now s).1.current_status
              = MotionStatus.Inactive)
      ∧ idle_step cfg IdleQueryResult.err now s = (s, []) := by
  refine ⟨fun hi => ⟨?_, ?_⟩, fun hi => ⟨?_, ?_⟩, rfl⟩
  · simp [idle_step, hi, update_status_motion, update_motion]
  · simp [idle_step, hi, update_status_current]
  · simp [idle_step, hi, update_status_motion]
  · simp [idle_step, hi, update_status_current]

/-- Claim C4 witness at concrete inputs: an active poll and an idle poll
from the fresh tracker. -/
theorem c4_idle_step_frame_witness :
    ((idle_step sampleCfg (IdleQueryResult.ok 3) 100 MotionTracker.new).1.last_motion
        = some 100
      ∧ (idle_step sampleCfg (IdleQueryResult.ok 3) 100 MotionTracker.new).1.current_status
          = MotionStatus.Active)
      ∧ ((idle_step sampleCfg (IdleQueryResult.ok 12) 100 MotionTracker.new).1.last_motion
          = none
        ∧ (idle_step sampleCfg (IdleQueryResult.ok 12) 100 MotionTracker.new).1.current_status
            = MotionStatus.Inactive) :=
  ⟨(c4_idle_step_frame sampleCfg MotionTracker.new 3 100).1 (by decide),
   (c4_idle_step_frame sampleCfg MotionTracker.new 12 100).2.1 (by decide)⟩

/-- Claim C8: the adhoc route invokes send_notification exactly once with
the data of the request, unconditionally, replies with the success
acknowledgment, and neither reads nor modifies the tracker; the fresh
tracker has should_notify false at every time, yet the send still
happens from it. -/
theorem c8_adhoc_bypass (s s2 : MotionTracker) (n : AdhocNotification) (now : Nat) :
    (adhoc_handler s n).2.1 = [adhocConfig n]
      ∧ (adhoc_handler s n).2.1.length = 1
      ∧ (adhoc_handler s n).2.2 = "Notification sent"
      ∧ (adhoc_handler s n).1 = s
      ∧ (adhoc_handler s n).2.1 = (adhoc_handler s2 n).2.1
      ∧ (adhocConfig n).message = n.message
      ∧ should_notify now MotionTracker.new = false
      ∧ (adhoc_handler MotionTracker.new n).2.1.length = 1 :=
  ⟨rfl, rfl, rfl, rfl, rfl, rfl, rfl, rfl⟩

/-- Claim C9: a presence transition updates the status cell the same
whether or not Home Assistant is configured, but dispatches a push only
when both the url and the api key are present; with either absent nothing
is ever dispatched. -/
theorem c9_publish_iff_configured (cfg cfg2 : HAConfig) (s : MotionTracker)
    (ns : MotionStatus) (u k : String)
    (h : cfg.ha_url = none ∨ cfg.ha_api_key = none) :
    (update_status cfg ns s).2 = []
      ∧ (update_status cfg ns s).1 = (update_status cfg2 ns s).1
      ∧ (s.current_status ≠ ns → (update_status ⟨some u, some k⟩ ns s).2 = [ns]) := by
  refine ⟨update_status_pub_nil cfg ns s h, update_status_state_cfg cfg cfg2 ns s,
    fun hne => ?_⟩
  simp [update_status, hne]

/-- Claim C9 witness at concrete inputs: missing url yields no dispatch
but the same state update, full settings yield one dispatch. -/
theorem c9_publish_iff_configured_witness :
    (update_status ⟨none, some "k"⟩ MotionStatus.Active MotionTracker.new).2 = []
      ∧ (update_status ⟨none, some "k"⟩ MotionStatus.Active MotionTracker.new).1
          = (update_status ⟨some "u", some "k"⟩ MotionStatus.Active MotionTracker.new).1
      ∧ (update_status ⟨some "u", some "k"⟩ MotionStatus.Active MotionTracker.new).2
          = [MotionStatus.Active] := by
  have h := c9_publish_iff_configured ⟨none, some "k"⟩ ⟨some "u", some "k"⟩
    MotionTracker.new MotionStatus.Active "u" "k" (Or.inl rfl)
  exact ⟨h.1, h.2.1, h.2.2 (by decide)⟩

/-- Running an extended trace is one step after running the prefix. -/
theorem runEvents_append_one (cfg : HAConfig) (spec : NotificationConfig)
    (es : List Event) (e : Event) (st : SysState) :
    runEvents cfg spec (es ++ [e]) st
      = stepEvent cfg spec (runEvents cfg spec es st) e := by
  simp [runEvents, List.foldl_append]

/-- A trace without activity-recording events started with no recorded
motion keeps last_motion unset and sends nothing. -/
theorem runEvents_no_activity (cfg : HAConfig) (spec : NotificationConfig) :
    ∀ (es : List Event) (st : SysState),
      (∀ e ∈ es, recordsActivity e = false) → st.tracker.last_motion = none →
      (runEvents cfg spec es st).sent = st.sent
        ∧ (runEvents cfg spec es st).tracker.last_motion = none := by
  intro es
  induction es with
  | nil => intro st _ h0; exact ⟨rfl, h0⟩
  | cons e rest ih =>
    intro st hes h0
    have he : recordsActivity e = false := hes e (by simp)
    have hrest : ∀ x ∈ rest, recordsActivity x = false :=
      fun x hx => hes x (by simp [hx])
    have hstep : (stepEvent cfg spec st e).tracker.last_motion = none
        ∧ (stepEvent cfg spec st e).sent = st.sent := by
      cases e with
      | poll q now =>
        cases q with
        | ok i =>
          have hi : ¬ i < 10 := by simpa [recordsActivity] using he
          refine ⟨?_, rfl⟩
          simp [stepEvent, idle_step, hi, update_status_motion, h0]
        | err => exact ⟨h0, rfl⟩
      | tick now =>
        have hn : should_notify now st.tracker = false := by
          simp [should_notify, h0]
        exact ⟨by simp [stepEvent, hn, h0], by simp [stepEvent, hn]⟩
    have hrun := ih (stepEvent cfg spec st e) hrest hstep.1
    refine ⟨?_, hrun.2⟩
    calc (runEvents cfg spec (e :: rest) st).sent
        = (runEvents cfg spec rest (stepEvent cfg spec st e)).sent := rfl
      _ = (stepEvent cfg spec st e).sent := hrun.1
      _ = st.sent := hstep.2

/-- Claim C2: a reminder timer evaluates first after exactly one interval
and then after every further interval; at each tick the spec is handed to
send_notification iff should_notify holds at that instant; a trace with no
activity-recording event sends nothing, and recorded activity followed by
a tick within 15 minutes sends exactly once. -/
theorem c2_reminder_loop (interval n now i t tq : Nat) (cfg : HAConfig)
    (spec : NotificationConfig) (es : List Event) :
    reminder_tick_time interval 0 = interval
      ∧ reminder_tick_time interval (n + 1) = reminder_tick_time interval n + interval
      ∧ (0 < interval → 0 < reminder_tick_time interval n)
      ∧ (runEvents cfg spec (es ++ [Event.tick now]) initSys).sent
          = (runEvents cfg spec es initSys).sent
            ++ (if should_notify now (runEvents cfg spec es initSys).tracker
                then [spec] else [])
      ∧ ((∀ e ∈ es, recordsActivity e = false) →
          (runEvents cfg spec es initSys).sent = [])
      ∧ (i < 10 → tq - t ≤ 15 * 60 →
          (runEvents cfg spec
              [Event.poll (IdleQueryResult.ok i) t, Event.tick tq] initSys).sent
            = [spec]) := by
  refine ⟨?_, ?_, ?_, ?_, ?_, ?_⟩
  · simp [reminder_tick_time]
  · simp [reminder_tick_time]; ring
  · intro h
    have : 0 < n + 1 := Nat.succ_pos n
    exact Nat.mul_pos this h
  · rw [runEvents_append_one]
    cases hc : should_notify now (runEvents cfg spec es initSys).tracker <;>
      simp [stepEvent, hc]
  · intro hes
    exact (runEvents_no_activity cfg spec es initSys hes rfl).1
  · intro hi hw
    have e1 : (idle_step cfg (IdleQueryResult.ok i) t MotionTracker.new).1.last_motion
        = some t := by
      simp [idle_step, hi, update_status_motion, update_motion]
    have hsn : should_notify tq
        (idle_step cfg (IdleQueryResult.ok i) t MotionTracker.new).1 = true := by
      simp [should_notify, e1, hw]
    calc (runEvents cfg spec
          [Event.poll (IdleQueryResult.ok i) t, Event.tick tq] initSys).sent
        = (stepEvent cfg spec (stepEvent cfg spec initSys
            (Event.poll (IdleQueryResult.ok i) t)) (Event.tick tq)).sent := rfl
      _ = [spec] := by simp [stepEvent, hsn, initSys]

/-- Claim C2 witness at concrete inputs: first tick after one interval, a
no-activity trace sends nothing, activity then a tick within the window
sends exactly once. -/
theorem c2_reminder_loop_witness :
    reminder_tick_time 2 0 = 2
      ∧ (runEvents sampleCfg sampleSpec [Event.poll IdleQueryResult.err 0] initSys).sent
          = []
      ∧ (runEvents sampleCfg sampleSpec
          [Event.poll (IdleQueryResult.ok 3) 1, Event.tick 5] initSys).sent
          = [sampleSpec] := by
  have h := c2_reminder_loop 2 0 0 3 1 5 sampleCfg sampleSpec
    [Event.poll IdleQueryResult.err 0]
  exact ⟨h.1, h.2.2.2.2.1 (by decide), h.2.2.2.2.2 (by decide) (by decide)⟩

/-- A reminder tick never changes the tracker. -/
theorem stepEvent_tick_tracker (cfg : HAConfig) (spec : NotificationConfig)
    (st : SysState) (now : Nat) :
    (stepEvent cfg spec st (Event.tick now)).tracker = st.tracker := by
  cases hc : should_notify now st.tracker <;> simp [stepEvent, hc]

/-- A reminder tick never dispatches a push. -/
theorem stepEvent_tick_pub (cfg : HAConfig) (spec : NotificationConfig)
    (st : SysState) (now : Nat) :
    (stepEvent cfg spec st (Event.tick now)).published = st.published := by
  cases hc : should_notify now st.tracker <;> simp [stepEvent, hc]

/-- Status assigned by a successful poll iteration. -/
theorem idle_step_current (cfg : HAConfig) (i now : Nat) (s : MotionTracker) :
    (idle_step cfg (IdleQueryResult.ok i) now s).1.current_status
      = (if i < 10 then MotionStatus.Active else MotionStatus.Inactive) := by
  by_cases hi : i < 10 <;> simp [idle_step, hi, update_status_current]

/-- Pushes of a successful poll iteration, with both settings configured:
one iff the assigned status differs from the current one. -/
theorem idle_step_pub_len (u k : String) (i now : Nat) (s : MotionTracker) :
    (idle_step ⟨some u, some k⟩ (IdleQueryResult.ok i) now s).2.length
      = if s.current_status
            = (if i < 10 then MotionStatus.Active else MotionStatus.Inactive)
        then 0 else 1 := by
  by_cases hi : i < 10
  · have h := update_status_pub_len u k MotionStatus.Active (update_motion now s)
    simpa [idle_step, hi, update_motion] using h
  · have h := update_status_pub_len u k MotionStatus.Inactive s
    simpa [idle_step, hi] using h

/-- With both settings configured, the pushes of a whole trace are exactly
the status changes along the successful polls: ticks and failed polls
dispatch nothing, repeated identical statuses dispatch nothing. -/
theorem runEvents_pub_changes (u k : String) (spec : NotificationConfig) :
    ∀ (es : List Event) (st : SysState),
      (runEvents ⟨some u, some k⟩ spec es st).published.length
        = st.published.length + changes st.tracker.current_status (pollStatuses es) := by
  intro es
  induction es with
  | nil => intro st; simp [runEvents, pollStatuses, changes]
  | cons e rest ih =>
    intro st
    have hr : runEvents ⟨some u, some k⟩ spec (e :: rest) st
        = runEvents ⟨some u, some k⟩ spec rest
            (stepEvent ⟨some u, some k⟩ spec st e) := rfl
    rw [hr, ih]
    cases e with
    | tick now =>
      simp [stepEvent_tick_tracker, stepEvent_tick_pub, pollStatuses]
    | poll q now =>
      cases q with
      | err => simp [stepEvent, idle_step, pollStatuses]
      | ok i =>
        have hp := idle_step_pub_len u k i now st.tracker
        have hc := idle_step_current (⟨some u, some k⟩ : HAConfig) i now st.tracker
        simp only [stepEvent, List.length_append, pollStatuses, changes, hp, hc]
        omega

/-- Claim C3: with the publisher configured, update_status dispatches one
push per transition and none when the status is unchanged; repeating the
same status right away dispatches nothing more; over a whole trace the
pushes are exactly the presence changes along the successful polls, and no
other mechanism dispatches one. -/
theorem c3_update_status_edge (u k : String) (s : MotionTracker) (ns : MotionStatus)
    (spec : NotificationConfig) (es : List Event) (st : SysState) :
    ((update_status ⟨some u, some k⟩ ns s).2.length
        = if s.current_status = ns then 0 else 1)
      ∧ (update_status ⟨some u, some k⟩ ns
          (update_status ⟨some u, some k⟩ ns s).1).2 = []
      ∧ ((runEvents ⟨some u, some k⟩ spec es st).published.length
          = st.published.length + changes st.tracker.current_status (pollStatuses es)) :=
  ⟨update_status_pub_len u k ns s,
   update_status_pub_same _ ns _ (update_status_current _ ns s),
   runEvents_pub_changes u k spec es st⟩

/-- Every reachable state with Active presence carries the time of the
most recent successful poll in last_motion. -/
theorem runEvents_active_inv (cfg : HAConfig) (spec : NotificationConfig) :
    ∀ (es : List Event) (st : SysState) (a : Option Nat),
      (st.tracker.current_status = MotionStatus.Active →
        st.tracker.last_motion = a ∧ a.isSome = true) →
      ((runEvents cfg spec es st).tracker.current_status = MotionStatus.Active →
        (runEvents cfg spec es st).tracker.last_motion = es.foldl lastPollStep a
          ∧ (es.foldl lastPollStep a).isSome = true) := by
  intro es
  induction es with
  | nil => intro st a h; exact h
  | cons e rest ih =>
    intro st a h
    have hstep : (stepEvent cfg spec st e).tracker.current_status = MotionStatus.Active →
        (stepEvent cfg spec st e).tracker.last_motion = lastPollStep a e
          ∧ (lastPollStep a e).isSome = true := by
      cases e with
      | tick now =>
        rw [stepEvent_tick_tracker]
        exact h
      | poll q now =>
        cases q with
        | err => exact fun hact => h hact
        | ok i =>
          intro hact
          by_cases hi : i < 10
          · refine ⟨?_, rfl⟩
            simp [stepEvent, idle_step, hi, update_status_motion, update_motion,
              lastPollStep]
          · exfalso
            have hin : (stepEvent cfg spec st
                (Event.poll (IdleQueryResult.ok i) now)).tracker.current_status
                  = MotionStatus.Inactive := by
              simp [stepEvent, idle_step, hi, update_status_current]
            rw [hin] at hact
            exact MotionStatus.noConfusion hact
    exact ih (stepEvent cfg spec st e) (lastPollStep a e) hstep

/-- Claim C6: in every reachable state of the tracker, Active presence
implies last_motion is set, and set precisely to the time of the most
recent successful idle poll, which is what keeps it recent relative to the
10 second poll cadence. -/
theorem c6_active_invariant (cfg : HAConfig) (spec : NotificationConfig) (es : List Event)
    (h : (runEvents cfg spec es initSys).tracker.current_status = MotionStatus.Active) :
    (runEvents cfg spec es initSys).tracker.last_motion = lastSuccessfulPoll es
      ∧ (lastSuccessfulPoll es).isSome = true := by
  have hinit : initSys.tracker.current_status = MotionStatus.Active →
      initSys.tracker.last_motion = (none : Option Nat)
        ∧ (none : Option Nat).isSome = true := by
    intro hact
    exact absurd hact (by decide)
  exact runEvents_active_inv cfg spec es initSys none hinit h

/-- Claim C6 witness: after one active poll at time 100 the presence is
Active and last_motion holds exactly that poll time. -/
theorem c6_active_invariant_witness :
    (runEvents sampleCfg sampleSpec [Event.poll (IdleQueryResult.ok 3) 100]
        initSys).tracker.last_motion
      = lastSuccessfulPoll [Event.poll (IdleQueryResult.ok 3) 100]
      ∧ (lastSuccessfulPoll [Event.poll (IdleQueryResult.ok 3) 100]).isSome = true :=
  c6_active_invariant sampleCfg sampleSpec [Event.poll (IdleQueryResult.ok 3) 100]
    (by decide)

/-- A list of length at least two splits off a nonempty front and a last
element. -/
theorem two_le_concat (bs : List Nat) (h : 2 ≤ bs.length) :
    ∃ ys b, bs = ys ++ [b] ∧ ys ≠ [] := by
  rcases List.eq_nil_or_concat bs with h0 | ⟨ys, b, hc⟩
  · subst h0; simp at h
  · refine ⟨ys, b, by simpa [List.concat_eq_append] using hc, ?_⟩
    intro h0
    subst h0
    rw [hc] at h
    simp at h

/-- parse_interval on a string with a nonempty numeric part and a final
byte: panic on a continuation byte, otherwise parse the prefix as u64 and
dispatch on the unit byte. -/
theorem parse_interval_concat (ys : List Nat) (b : Nat) (hne : ys ≠ []) :
    parse_interval (ys ++ [b])
      = if isContByte b then IntervalResult.panics
        else match parse_u64 ys with
          | none => IntervalResult.err invalidNumberMsg
          | some v =>
            if b = 115 then IntervalResult.ok v
            else if b = 109 then IntervalResult.ok ((v * 60) % 2 ^ 64)
            else if b = 104 then IntervalResult.ok ((v * 3600) % 2 ^ 64)
            else IntervalResult.err invalidUnitMsg := by
  have h1 : 0 < ys.length := List.length_pos.mpr hne
  have hlen : (ys ++ [b]).length = ys.length + 1 := by simp
  have hlt : ¬ (ys ++ [b]).length < 2 := by rw [hlen]; omega
  have hsub : (ys ++ [b]).length - 1 = ys.length := by rw [hlen]; omega
  have htake : (ys ++ [b]).take ((ys ++ [b]).length - 1) = ys := by
    rw [hsub]
    exact List.take_left ys [b]
  have hdrop : (ys ++ [b]).drop ((ys ++ [b]).length - 1) = [b] := by
    rw [hsub]
    exact List.drop_left ys [b]
  have hlast : (ys ++ [b]).getLast?.getD 0 = b := by
    simp [List.getLast?_concat]
  unfold parse_interval
  rw [if_neg hlt, htake, hdrop, hlast]
  by_cases hcb : isContByte b
  · simp [hcb]
  · simp only [hcb, Bool.false_eq_true, if_false]
    cases hp : parse_u64 ys with
    | none => rfl
    | some v => simp

/-- Claim C5 (amended): parse_interval is a pure deterministic function of
the UTF-8 bytes of the input. Byte length below 2 gives the invalid-format
error; with a final continuation byte (the last character is multi-byte)
split_at panics; otherwise the prefix before the last byte must parse as
u64 and the final byte selects the unit, the m and h products wrapping
modulo 2 ^ 64; a failing prefix gives the invalid-number error and an
unrecognized unit byte the invalid-unit error. The concrete instances of
the spec are included. -/
theorem c5_parse_interval_spec (bs : List Nat) (n : Nat) :
    (bs.length < 2 → parse_interval bs = IntervalResult.err invalidFormatMsg)
      ∧ (2 ≤ bs.length → isContByte (bs.getLast?.getD 0) = true →
          parse_interval bs = IntervalResult.panics)
      ∧ (2 ≤ bs.length → isContByte (bs.getLast?.getD 0) = false →
          parse_u64 bs.dropLast = none →
          parse_interval bs = IntervalResult.err invalidNumberMsg)
      ∧ (2 ≤ bs.length → parse_u64 bs.dropLast = some n →
          bs.getLast?.getD 0 = 115 → parse_interval bs = IntervalResult.ok n)
      ∧ (2 ≤ bs.length → parse_u64 bs.dropLast = some n →
          bs.getLast?.getD 0 = 109 →
          parse_interval bs = IntervalResult.ok ((n * 60) % 2 ^ 64))
      ∧ (2 ≤ bs.length → parse_u64 bs.dropLast = some n →
          bs.getLast?.getD 0 = 104 →
          parse_interval bs = IntervalResult.ok ((n * 3600) % 2 ^ 64))
      ∧ (2 ≤ bs.length → isContByte (bs.getLast?.getD 0) = false →
          parse_u64 bs.dropLast = some n →
          bs.getLast?.getD 0 ≠ 115 → bs.getLast?.getD 0 ≠ 109 →
          bs.getLast?.getD 0 ≠ 104 →
          parse_interval bs = IntervalResult.err invalidUnitMsg)
      ∧ parse_interval [51, 48, 109] = IntervalResult.ok 1800
      ∧ parse_interval [50, 104] = IntervalResult.ok 7200
      ∧ parse_interval [52, 53, 115] = IntervalResult.ok 45
      ∧ parse_interval [] = IntervalResult.err invalidFormatMsg
      ∧ parse_interval [53] = IntervalResult.err invalidFormatMsg
      ∧ parse_interval [53, 120] = IntervalResult.err invalidUnitMsg := by
  refine ⟨fun h => ?_, fun h2 hcont => ?_, fun h2 hcont hp => ?_,
    fun h2 hp hb => ?_, fun h2 hp hb => ?_, fun h2 hp hb => ?_,
    fun h2 hcont hp hb1 hb2 hb3 => ?_,
    by decide, by decide, by decide, by decide, by decide, by decide⟩
  · unfold parse_interval
    rw [if_pos h]
  · obtain ⟨ys, b, rfl, hne⟩ := two_le_concat _ h2
    simp only [List.getLast?_concat, Option.getD_some] at hcont
    rw [parse_interval_concat ys b hne, if_pos hcont]
  · obtain ⟨ys, b, rfl, hne⟩ := two_le_concat _ h2
    simp only [List.getLast?_concat, Option.getD_some] at hcont
    simp only [List.dropLast_concat] at hp
    rw [parse_interval_concat ys b hne]
    simp [hcont, hp]
  · obtain ⟨ys, b, rfl, hne⟩ := two_le_concat _ h2
    simp only [List.getLast?_concat, Option.getD_some] at hb
    simp only [List.dropLast_concat] at hp
    subst hb
    rw [parse_interval_concat ys 115 hne]
    have hcb : isContByte 115 = false := by decide
    simp [hcb, hp]
  · obtain ⟨ys, b, rfl, hne⟩ := two_le_concat _ h2
    simp only [List.getLast?_concat, Option.getD_some] at hb
    simp only [List.dropLast_concat] at hp
    subst hb
    rw [parse_interval_concat ys 109 hne]
    have hcb : isContByte 109 = false := by decide
    simp [hcb, hp]
  · obtain ⟨ys, b, rfl, hne⟩ := two_le_concat _ h2
    simp only [List.getLast?_concat, Option.getD_some] at hb
    simp only [List.dropLast_concat] at hp
    subst hb
    rw [parse_interval_concat ys 104 hne]
    have hcb : isContByte 104 = false := by decide
    simp [hcb, hp]
  · obtain ⟨ys, b, rfl, hne⟩ := two_le_concat _ h2
    simp only [List.getLast?_concat, Option.getD_some] at hcont hb1 hb2 hb3
    simp only [List.dropLast_concat] at hp
    rw [parse_interval_concat ys b hne]
    simp [hcont, hp, hb1, hb2, hb3]

/-- Claim C5 counterexample: the input built from bytes 195 and 169, the
UTF-8 encoding of the letter e with acute accent, is one character long
but two bytes long; the claim as stated predicts the invalid-format error
for a string shorter than two characters, yet parse_interval panics in
split_at, which is neither an Ok result nor one of the three documented
errors. -/
theorem c5_parse_interval_cex :
    parse_interval [195, 169] = IntervalResult.panics
      ∧ isDocumentedError (parse_interval [195, 169]) = false
      ∧ isOkResult (parse_interval [195, 169]) = false := by
  refine ⟨by decide, by decide, by decide⟩

/-- Claim C5 witness at concrete inputs, from the amended theorem: the m
branch on the bytes of 30m, and the invalid-format error on the single
byte 5. -/
theorem c5_parse_interval_spec_witness :
    parse_interval [51, 48, 109] = IntervalResult.ok ((30 * 60) % 2 ^ 64)
      ∧ parse_interval [53] = IntervalResult.err invalidFormatMsg :=
  ⟨(c5_parse_interval_spec [51, 48, 109] 30).2.2.2.2.1 (by decide) (by decide)
      (by decide),
   (c5_parse_interval_spec [53] 0).1 (by decide)⟩

/-- When every interval parses, the spawn loop spawns one timer per spec
and does not abort. -/
theorem spawn_reminders_all_ok (xs : List (List Nat))
    (h : ∀ iv ∈ xs, isOkResult (parse_interval iv) = true) :
    (spawn_reminders xs).2 = false ∧ (spawn_reminders xs).1.length = xs.length := by
  induction xs with
  | nil => exact ⟨rfl, rfl⟩
  | cons iv rest ih =>
    have h1 : isOkResult (parse_interval iv) = true := h iv (by simp)
    have h2 := ih (fun x hx => h x (by simp [hx]))
    cases hp : parse_interval iv with
    | ok v => simp [spawn_reminders, hp, h2.1, h2.2]
    | err m => rw [hp] at h1; simp [isOkResult] at h1
    | panics => rw [hp] at h1; simp [isOkResult] at h1

/-- Claim C7 (amended): the spawn loop aborts exactly when some interval
fails to parse, and by then the timers already spawned are exactly those
of the longest prefix of well-formed specs: a bad interval stops its own
timer and all later ones, but the earlier well-formed specs have had their
timers spawned before main aborts. -/
theorem c7_spawn_prefix (xs : List (List Nat)) :
    ((spawn_reminders xs).2 = true
        ↔ ∃ iv ∈ xs, isOkResult (parse_interval iv) = false)
      ∧ (spawn_reminders xs).1.map Prod.fst
          = xs.takeWhile (fun iv => isOkResult (parse_interval iv)) := by
  induction xs with
  | nil => refine ⟨by simp [spawn_reminders], by simp [spawn_reminders]⟩
  | cons iv rest ih =>
    cases hp : parse_interval iv with
    | ok v =>
      constructor
      · rw [show (spawn_reminders (iv :: rest)).2 = (spawn_reminders rest).2 by
          simp [spawn_reminders, hp]]
        rw [ih.1]
        constructor
        · intro ⟨x, hx, hbad⟩
          exact ⟨x, by simp [hx], hbad⟩
        · intro ⟨x, hx, hbad⟩
          rcases List.mem_cons.mp hx with rfl | hx2
          · rw [hp] at hbad; simp [isOkResult] at hbad
          · exact ⟨x, hx2, hbad⟩
      · have hok : isOkResult (parse_interval iv) = true := by simp [hp, isOkResult]
        simp [spawn_reminders, hp, List.takeWhile_cons, hok, ih.2, isOkResult]
    | err m =>
      have hbad : isOkResult (parse_interval iv) = false := by simp [hp, isOkResult]
      constructor
      · simp only [spawn_reminders, hp]
        constructor
        · intro _
          exact ⟨iv, by simp, hbad⟩
        · intro _
          trivial
      · simp [spawn_reminders, hp, List.takeWhile_cons, hbad, isOkResult]
    | panics =>
      have hbad : isOkResult (parse_interval iv) = false := by simp [hp, isOkResult]
      constructor
      · simp only [spawn_reminders, hp]
        constructor
        · intro _
          exact ⟨iv, by simp, hbad⟩
        · intro _
          trivial
      · simp [spawn_reminders, hp, List.takeWhile_cons, hbad, isOkResult]

/-- Claim C7 counterexample: with the well-formed interval 1s (bytes 49,
115) followed by the malformed 5x (bytes 53, 120), main aborts, yet the
timer for the earlier spec has already been spawned and begun running,
against the claim that no reminder timer begins running for any spec. -/
theorem c7_spawn_prefix_cex :
    (spawn_reminders [[49, 115], [53, 120]]).2 = true
      ∧ (spawn_reminders [[49, 115], [53, 120]]).1 = [([49, 115], 1)] := by
  refine ⟨by decide, by decide⟩

/-- Claim C10: with the webserver disabled, whenever every interval
parses, main returns Ok immediately after spawning one timer per spec and
never reaches the blocking serve call, whatever the configured intervals
or listen address. -/
theorem c10_webserver_disabled (addrOk : Bool) (intervals : List (List Nat)) :
    ((∀ iv ∈ intervals, isOkResult (parse_interval iv) = true) →
        main_run false addrOk intervals = MainOutcome.returnsOk intervals.length)
      ∧ ∀ m, main_run false addrOk intervals ≠ MainOutcome.serveForever m := by
  constructor
  · intro h
    have hs := spawn_reminders_all_ok intervals h
    simp [main_run, hs.1, hs.2]
  · intro m
    cases hb : (spawn_reminders intervals).2 <;> simp [main_run, hb]

/-- Claim C10 witness: one well-formed spec with interval 1s, webserver
disabled, main returns Ok with one timer spawned. -/
theorem c10_webserver_disabled_witness :
    main_run false true [[49, 115]] = MainOutcome.returnsOk 1 :=
  (c10_webserver_disabled true [[49, 115]]).1 (by decide)
